import Mathlib

/-!
# TorchScript lazy-tensor backend (`ts_backend/backend_impl.cpp`)

A shallow embedding of `TSBackendDeviceType` and `TSBackendImpl`, followed by
the properties established about them.  Fallible C++ code returns
`Except Failure _`; the mutable member `default_device_type_` and the
function-local static of `SetDefaultDeviceType` are passed explicitly.
-/

namespace torch_lazy_tensors
namespace compiler

/-! ## Outcomes -/

/-- The three ways a call can stop without a result.  `torchCheck` is the
`TORCH_CHECK` of the `TSBackendDeviceType` constructor, `placementCheck` is the
`CHECK` inside the argument loop of `ExecuteComputation`, and `tensorError` is
an error raised by the tensor library or by the graph executor. -/
inductive Failure where
  | torchCheck : Failure
  | placementCheck : Failure
  | tensorError : Failure
deriving DecidableEq, Repr

/-! ## Device kinds and devices -/

/-- Modelled from the spec: `c10::DeviceType` is declared outside this file.  It
is an enum class over `int8_t`; a kind is represented by its integer code, the
host kind (CPU) by 0 and the accelerator kind (CUDA) by 1, every other code
being some other kind. -/
structure DeviceType where
  code : Int
deriving DecidableEq, Repr

/-- The host kind, `at::kCPU`. -/
def kCPU : DeviceType := ⟨0⟩

/-- The accelerator kind, `at::kCUDA`. -/
def kCUDA : DeviceType := ⟨1⟩

/-- Modelled from the spec: `c10::Device` is declared outside this file; an
external device reference is a kind together with an index. -/
structure Device where
  type : DeviceType
  index : Int
deriving DecidableEq, Repr

/-- Modelled from the spec: `torch::lazy::BackendDeviceType` is declared outside
this file; it stores the `int8_t` code of a kind in its member `type`. -/
structure BackendDeviceType where
  type : Int
deriving DecidableEq, Repr

/-- Modelled from the spec: `torch::lazy::BackendDevice` is declared outside this
file; it is built from a (shared) `BackendDeviceType` and an ordinal and stores
both. -/
structure BackendDevice where
  type_ : BackendDeviceType
  ordinal_ : Int
deriving DecidableEq, Repr

/-- The accessor `BackendDevice::type()`: the code of the stored kind. -/
def BackendDevice.type (d : BackendDevice) : Int := d.type_.type

/-- The accessor `BackendDevice::ordinal()`. -/
def BackendDevice.ordinal (d : BackendDevice) : Int := d.ordinal_

/-! ## `TSBackendDeviceType` -/

/-- The struct `TSBackendDeviceType`: a `BackendDeviceType` (member `type`). -/
structure TSBackendDeviceType where
  type : Int
deriving DecidableEq, Repr

/-- The static member `supported_device_types_`:
`{(int8_t)at::kCPU, (int8_t)at::kCUDA}`. -/
def TSBackendDeviceType.supported_device_types_ : Finset Int :=
  {kCPU.code, kCUDA.code}

/-- The constructor `TSBackendDeviceType(c10::DeviceType deviceType)`: the
`TORCH_CHECK` that the code is found in the supported set, then
`type = (int8_t)deviceType`. -/
def TSBackendDeviceType.construct (deviceType : DeviceType) :
    Except Failure TSBackendDeviceType :=
  if deviceType.code ∈ TSBackendDeviceType.supported_device_types_ then
    .ok { type := deviceType.code }
  else
    .error Failure.torchCheck

/-- The member function `c10Type()`: `(c10::DeviceType)type`. -/
def TSBackendDeviceType.c10Type (t : TSBackendDeviceType) : DeviceType :=
  ⟨t.type⟩

/-- The base-class slice of a `TSBackendDeviceType`, as taken by
`std::make_shared<BackendDeviceType>(default_device_type_)`. -/
def TSBackendDeviceType.toBase (t : TSBackendDeviceType) : BackendDeviceType :=
  { type := t.type }

/-! ## `TSBackendImpl`: default device and device enumeration -/

/-- The class `TSBackendImpl`; its only data member is
`default_device_type_`. -/
structure TSBackendImpl where
  default_device_type_ : TSBackendDeviceType
deriving DecidableEq, Repr

/-- The constructor `TSBackendImpl()`.  The argument is the value read by
`GetEnvBool("LTC_TS_CUDA", false)`. -/
def TSBackendImpl.create (ltc_ts_cuda : Bool) : Except Failure TSBackendImpl := do
  let type := if ltc_ts_cuda then kCUDA else kCPU
  let t ← TSBackendDeviceType.construct type
  pure { default_device_type_ := t }

/-- The member function `GetDefaultDeviceType()`. -/
def TSBackendImpl.GetDefaultDeviceType (b : TSBackendImpl) : BackendDeviceType :=
  b.default_device_type_.toBase

/-- The member function `GetBackendDevice(c10::Device device)`:
`BackendDevice(GetDefaultDeviceType(), device.index())`. -/
def TSBackendImpl.GetBackendDevice (b : TSBackendImpl) (device : Device) :
    BackendDevice :=
  { type_ := b.GetDefaultDeviceType, ordinal_ := device.index }

/-- The member function `GetBackendDevices()`: two `emplace_back` calls on an
empty vector. -/
def TSBackendImpl.GetBackendDevices (b : TSBackendImpl) : List BackendDevice :=
  let devices : List BackendDevice := []
  let devices := devices ++ [b.GetBackendDevice ⟨kCPU, 0⟩]
  let devices := devices ++ [b.GetBackendDevice ⟨kCUDA, 0⟩]
  devices

/-- The member function `EagerFallbackDeviceType()`. -/
def TSBackendImpl.EagerFallbackDeviceType (b : TSBackendImpl) : DeviceType :=
  ⟨b.GetDefaultDeviceType.type⟩

/-! ## Tensors, scalars and executor values -/

/-- Modelled from the spec: `at::ScalarType` is declared outside this file; the
element type of a tensor.  `Undefined` is the element type reported by an
undefined tensor handle. -/
inductive ScalarType where
  | Byte | Char | Short | Int | Long | Half | Float | Double
  | ComplexHalf | ComplexFloat | ComplexDouble | Bool | BFloat16 | Undefined
deriving DecidableEq, Repr

/-- Modelled from the spec: `at::Scalar` is declared outside this file; a single
host value.  A floating-point value is carried as its bit pattern: no
arithmetic is ever done on it. -/
inductive Scalar where
  | ofInt (v : Int)
  | ofDouble (bits : Nat)
  | ofBool (v : Bool)
deriving DecidableEq, Repr

/-- The accessor `at::Scalar::type()`. -/
def Scalar.type : Scalar → ScalarType
  | .ofInt _ => ScalarType.Long
  | .ofDouble _ => ScalarType.Double
  | .ofBool _ => ScalarType.Bool

/-- Modelled from the spec: `torch::lazy::Shape` is declared outside this file; an
element type and a dimension list. -/
structure Shape where
  scalar_type : ScalarType
  sizes : List Nat
deriving DecidableEq, Repr

/-- Modelled from the spec: `at::TensorOptions` is declared outside this file;
only the element type and the device matter here. -/
structure TensorOptions where
  dtype : ScalarType
  device : Device
deriving DecidableEq, Repr

/-- Modelled from the spec: `c10::DeviceIndex` is declared outside this file; it
is `int8_t`.  An integer converted to it keeps its low eight bits, read as a
signed value: the values from -128 to 127 are kept, 300 becomes 44. -/
def toDeviceIndex (value : Int) : Int :=
  (value + 128) % 2 ^ 8 - 128

/-- The setter `TensorOptions::device(type, index)`: the same options on the
device `c10::Device(type, index)`.  The index parameter is a `DeviceIndex`, so
the integer given by the caller is converted on the way in. -/
def TensorOptions.setDevice (o : TensorOptions) (type : DeviceType) (index : Int) :
    TensorOptions :=
  { o with device := ⟨type, toDeviceIndex index⟩ }

/-- Modelled from the spec: the storage behind a defined `at::Tensor`, declared
outside this file: the device the buffer resides on, the element type, the
dimensions (non-negative `int64_t` values) and the elements in row-major order,
as many as the dimensions multiply to. -/
structure TensorImpl where
  device : Device
  scalar_type : ScalarType
  sizes : List Nat
  elems : List Scalar
  wf : elems.length = sizes.prod

/-- Modelled from the spec: `at::Tensor` is declared outside this file; a handle
that is either undefined (default-constructed, no buffer) or refers to a
buffer. -/
inductive Tensor where
  | undefined : Tensor
  | defined (impl : TensorImpl) : Tensor

/-- The query `Tensor::defined()`. -/
def Tensor.isDefined : Tensor → Bool
  | .undefined => false
  | .defined _ => true

/-- The query `Tensor::device()`; an undefined handle has no device and the
query raises. -/
def Tensor.device : Tensor → Except Failure Device
  | .undefined => .error Failure.tensorError
  | .defined impl => .ok impl.device

/-- The query `Tensor::sizes()`. -/
def Tensor.sizes : Tensor → List Nat
  | .undefined => [0]
  | .defined impl => impl.sizes

/-- The query `Tensor::scalar_type()`. -/
def Tensor.scalar_type : Tensor → ScalarType
  | .undefined => ScalarType.Undefined
  | .defined impl => impl.scalar_type

/-- The query `Tensor::numel()`. -/
def Tensor.numel (t : Tensor) : Nat := t.sizes.prod

/-- The elements of a tensor, row-major; none for an undefined handle. -/
def Tensor.elems : Tensor → List Scalar
  | .undefined => []
  | .defined impl => impl.elems

/-- The query `Tensor::options()`; it reads the device, so it raises on an
undefined handle. -/
def Tensor.options (t : Tensor) : Except Failure TensorOptions := do
  let device ← t.device
  pure { dtype := t.scalar_type, device := device }

/-- The query `Tensor::item()`: the single element of a one-element tensor; it
raises for any other element count. -/
def Tensor.item : Tensor → Except Failure Scalar
  | .undefined => .error Failure.tensorError
  | .defined impl =>
    match impl.elems with
    | [v] => .ok v
    | _ => .error Failure.tensorError

/-- Modelled from the spec: `Tensor::to(options, non_blocking)` is declared
outside this file; the transfer yields a tensor with the dimensions and
elements of the source, residing on the device of `options`.  Whether the
transfer blocks does not change the tensor it yields. -/
def Tensor.to (t : Tensor) (options : TensorOptions) (_non_blocking : Bool) :
    Except Failure Tensor :=
  match t with
  | .undefined => .error Failure.tensorError
  | .defined impl =>
    .ok (.defined { impl with device := options.device, scalar_type := options.dtype })

/-- Modelled from the spec: `at::full(sizes, fill_value, options)` is declared
outside this file; a new tensor of the given dimensions, every element being
the fill value, residing on the device of `options`. -/
def full (sizes : List Nat) (fill_value : Scalar) (options : TensorOptions) : Tensor :=
  .defined
    { device := options.device
      scalar_type := options.dtype
      sizes := sizes
      elems := List.replicate sizes.prod fill_value
      wf := List.length_replicate _ _ }

/-- Modelled from the spec: `at::scalar_tensor(s, options)` is declared outside
this file; a zero-dimensional tensor holding `s`. -/
def scalar_tensor (s : Scalar) (options : TensorOptions) : Tensor :=
  .defined
    { device := options.device
      scalar_type := options.dtype
      sizes := []
      elems := [s]
      wf := rfl }

/-- Modelled from the spec: `torch::jit::IValue` is declared outside this file; a
value on the executor stack: a scalar, a tensor, or anything else (tuples,
lists, none, ...), told apart by a tag. -/
inductive IValue where
  | scalar (s : Scalar) : IValue
  | tensor (t : Tensor) : IValue
  | other (tag : Nat) : IValue

/-- The conversion `IValue::toTensor()`; it raises on a value that is not a
tensor. -/
def IValue.toTensor : IValue → Except Failure Tensor
  | .tensor t => .ok t
  | _ => .error Failure.tensorError

/-! ## `TSData` -/

/-- Modelled from the spec: `TSData` is declared in `backend_impl.h`, outside this
file.  A deferred value always has a device and a shape; it carries a scalar,
or a buffer (`data_` defined), or neither (a placeholder). -/
structure TSData where
  device : BackendDevice
  shape : Shape
  scalar : Option Scalar
  data_ : Tensor

/-- The constructor `TSData(scalar, device)`: no buffer, shape of a scalar. -/
def TSData.ofScalar (scalar : Scalar) (device : BackendDevice) : TSData :=
  { device := device, shape := ⟨scalar.type, []⟩, scalar := some scalar,
    data_ := Tensor.undefined }

/-- The constructor `TSData(data, shape, device)`. -/
def TSData.ofTensor (data : Tensor) (shape : Shape) (device : BackendDevice) : TSData :=
  { device := device, shape := shape, scalar := none, data_ := data }

/-- The constructor `TSData(shape, device)`: a placeholder. -/
def TSData.ofShape (shape : Shape) (device : BackendDevice) : TSData :=
  { device := device, shape := shape, scalar := none, data_ := Tensor.undefined }

/-- The accessor `TSData::data()`. -/
def TSData.data (d : TSData) : Tensor := d.data_

/-- The query `TSData::HasValue()`. -/
def TSData.HasValue (d : TSData) : Bool := d.data_.isDefined

/-! ## `TSBackendImpl`: data transfer -/

/-- The member function `MakeTensorFromComputationData(data,
logical_scalar_type)`. -/
def TSBackendImpl.MakeTensorFromComputationData (_b : TSBackendImpl) (data : TSData)
    (_logical_scalar_type : Option ScalarType) : Tensor :=
  let ts_data := data
  ts_data.data

/-- The member function `MakeComputationDataFromTensor(tensor, shape, device)`
with its three branches. -/
def TSBackendImpl.MakeComputationDataFromTensor (b : TSBackendImpl) (tensor : Tensor)
    (shape : Shape) (device : BackendDevice) : Except Failure TSData := do
  let options :=
    (← tensor.options).setDevice b.default_device_type_.c10Type device.ordinal
  if (← tensor.device).type = b.default_device_type_.c10Type ∧
      b.default_device_type_.c10Type = kCUDA then
    pure (TSData.ofTensor (← tensor.to options true) shape device)
  else if (← tensor.device).type = kCPU ∧ tensor.numel = 1 then
    let device_tensor := full tensor.sizes (← tensor.item) options
    pure (TSData.ofTensor device_tensor shape device)
  else
    pure (TSData.ofTensor (← tensor.to options false) shape device)

/-- The member function `MakeComputationDataFromScalar(scalar, device)`. -/
def TSBackendImpl.MakeComputationDataFromScalar (_b : TSBackendImpl) (scalar : Scalar)
    (device : BackendDevice) : TSData :=
  TSData.ofScalar scalar device

/-- The member function `CreateDataPlaceholder(device, shape)`. -/
def TSBackendImpl.CreateDataPlaceholder (_b : TSBackendImpl) (device : BackendDevice)
    (shape : Shape) : TSData :=
  TSData.ofShape shape device

/-! ## `TSBackendImpl`: compilation and execution -/

/-- A `ComputationPtr` is a shared pointer; it is represented by the address it
holds, so that equal pointers are the same computation object. -/
abbrev ComputationPtr := Nat

/-- The computation objects of the process, by address.  `C` is the content of
a `torch::lazy::TSComputation`, declared outside this file. -/
abbrev ComputationStore (C : Type) := ComputationPtr → Option C

/-- The body of the loop of `Compile`: the pointer is read and cast to
`TSComputation*`; the result is not used and nothing is written. -/
def TSBackendImpl.CompileVisit {C : Type} (store : ComputationStore C)
    (inst : ComputationPtr) : ComputationStore C :=
  let _ts_computation := store inst
  store

/-- The member function `Compile(instances)`: the loop over the instances, then
`return instances`.  The store after the call is returned with the list. -/
def TSBackendImpl.Compile {C : Type} (_b : TSBackendImpl) (store : ComputationStore C)
    (instances : List ComputationPtr) : ComputationStore C × List ComputationPtr :=
  let store := instances.foldl TSBackendImpl.CompileVisit store
  (store, instances)

/-- The executable of a computation, `graph_executor.run(stack)`: it replaces the
stack of inputs by the stack of outputs, or raises. -/
abbrev GraphExecutor := List IValue → Except Failure (List IValue)

/-- The body of the first loop of `ExecuteComputation`: one argument is pushed
on the stack.  The `CHECK` evaluates its right operand, which queries the
device of the buffer, only when the default kind is the accelerator kind. -/
def TSBackendImpl.pushArgument (b : TSBackendImpl) (stack : List IValue)
    (argument : TSData) : Except Failure (List IValue) :=
  let ts_data := argument
  match ts_data.scalar with
  | some value => pure (stack ++ [IValue.scalar value])
  | none =>
    if (⟨b.default_device_type_.type⟩ : DeviceType) ≠ kCUDA then
      pure (stack ++ [IValue.tensor ts_data.data])
    else do
      if (← ts_data.data.device).type = kCUDA then
        pure (stack ++ [IValue.tensor ts_data.data])
      else
        throw Failure.placementCheck

/-- The first loop of `ExecuteComputation`, over the arguments in order. -/
def TSBackendImpl.pushArguments (b : TSBackendImpl) :
    List IValue → List TSData → Except Failure (List IValue)
  | stack, [] => pure stack
  | stack, argument :: rest => do
    let stack ← b.pushArgument stack argument
    TSBackendImpl.pushArguments b stack rest

/-- The body of the second loop of `ExecuteComputation`: one value of the stack
is converted to a tensor and wrapped. -/
def TSBackendImpl.pushResult (device : BackendDevice) (results : List TSData)
    (component : IValue) : Except Failure (List TSData) := do
  let result ← component.toTensor
  let result_sizes := result.sizes
  let shape : Shape := ⟨result.scalar_type, result_sizes⟩
  pure (results ++ [TSData.ofTensor result shape device])

/-- The second loop of `ExecuteComputation`, over the stack in order. -/
def TSBackendImpl.pushResults (device : BackendDevice) :
    List TSData → List IValue → Except Failure (List TSData)
  | results, [] => pure results
  | results, component :: rest => do
    let results ← TSBackendImpl.pushResult device results component
    TSBackendImpl.pushResults device results rest

/-- The member function `ExecuteComputation(computation, arguments, device)`;
the computation is given by its executable. -/
def TSBackendImpl.ExecuteComputation (b : TSBackendImpl) (graph_executor : GraphExecutor)
    (arguments : List TSData) (device : BackendDevice) : Except Failure (List TSData) := do
  let stack ← b.pushArguments [] arguments
  let stack ← graph_executor stack
  TSBackendImpl.pushResults device [] stack

/-! ## `TSBackendImpl`: setting the default device -/

/-- The process around the backend singleton: the backend object, the
function-local static `init_cuda` of `SetDefaultDeviceType` (`none` until its
initialiser has run, which happens once), and a count of the warm-up
allocations (`at::scalar_tensor` on the accelerator) performed so far. -/
structure ProcessState where
  backend : TSBackendImpl
  init_cuda : Option (Option Tensor)
  warmups : Nat

/-- The process right after the backend has been constructed. -/
def ProcessState.start (backend : TSBackendImpl) : ProcessState :=
  { backend := backend, init_cuda := none, warmups := 0 }

/-- The member function `SetDefaultDeviceType(type)`; the argument is the kind
`c10::Device(type).type()` parsed from the string.  The assignment comes
first; the static is initialised by the first call that reaches it. -/
def SetDefaultDeviceType (p : ProcessState) (type : DeviceType) :
    Except Failure ProcessState := do
  let t ← TSBackendDeviceType.construct type
  let p := { p with backend := { default_device_type_ := t } }
  match p.init_cuda with
  | some _ => pure p
  | none =>
    if p.backend.default_device_type_.c10Type = kCUDA then
      let warm := scalar_tensor (Scalar.ofInt 0)
        (TensorOptions.setDevice ⟨ScalarType.Float, ⟨kCPU, -1⟩⟩ kCUDA (-1))
      pure { p with init_cuda := some (some warm), warmups := p.warmups + 1 }
    else
      pure { p with init_cuda := some none }

/-- One call of `SetDefaultDeviceType` seen from the caller: a call that raises
leaves the process as it was. -/
def setDefaultStep (p : ProcessState) (type : DeviceType) : ProcessState :=
  match SetDefaultDeviceType p type with
  | .ok q => q
  | .error _ => p

/-- A sequence of `SetDefaultDeviceType` calls, in order. -/
def setDefaultSequence (p : ProcessState) (types : List DeviceType) : ProcessState :=
  types.foldl setDefaultStep p

/-! ## Concrete values used by the instances below -/

/-- A backend whose default kind is the host kind. -/
def hostBackend : TSBackendImpl := ⟨⟨kCPU.code⟩⟩

/-- A backend whose default kind is the accelerator kind. -/
def acceleratorBackend : TSBackendImpl := ⟨⟨kCUDA.code⟩⟩

/-- The backend device (accelerator kind, ordinal 0). -/
def acceleratorDevice : BackendDevice := ⟨⟨kCUDA.code⟩, 0⟩

/-- The storage of a one-element tensor on the host. -/
def hostImpl1 : TensorImpl :=
  ⟨⟨kCPU, 0⟩, ScalarType.Long, [1], [Scalar.ofInt 7], rfl⟩

/-- A one-element tensor on the host. -/
def hostTensor1 : Tensor := Tensor.defined hostImpl1

/-- A two-by-two tensor on the host. -/
def hostTensor4 : TensorImpl :=
  ⟨⟨kCPU, 0⟩, ScalarType.Long, [2, 2],
    [Scalar.ofInt 1, Scalar.ofInt 2, Scalar.ofInt 3, Scalar.ofInt 4], rfl⟩

/-- A one-element tensor on the accelerator. -/
def acceleratorTensor1 : Tensor :=
  Tensor.defined ⟨⟨kCUDA, 0⟩, ScalarType.Long, [1], [Scalar.ofInt 7], rfl⟩

/-- A deferred value carrying the scalar 5. -/
def scalarFive : TSData := TSData.ofScalar (Scalar.ofInt 5) acceleratorDevice

/-- A deferred value whose buffer is on the accelerator. -/
def acceleratorValue : TSData :=
  TSData.ofTensor acceleratorTensor1 ⟨ScalarType.Long, [1]⟩ acceleratorDevice

/-- A deferred value whose buffer is on the host. -/
def hostValue : TSData :=
  TSData.ofTensor hostTensor1 ⟨ScalarType.Long, [1]⟩ acceleratorDevice

/-- A placeholder: neither scalar nor buffer. -/
def placeholderValue : TSData :=
  TSData.ofShape ⟨ScalarType.Long, [1]⟩ acceleratorDevice

/-- An executable that leaves its inputs on the stack. -/
def identityExecutor : GraphExecutor := fun stack => .ok stack

/-- The entry that the first loop of `ExecuteComputation` pushes for an argument
whose check passes: the scalar when there is one, the buffer `data()`
otherwise. -/
def TSData.stackEntry (argument : TSData) : IValue :=
  match argument.scalar with
  | some value => IValue.scalar value
  | none => IValue.tensor argument.data

/-! ## Properties: device kinds and device enumeration -/

/-- Membership in the supported set, spelled out. -/
theorem mem_supported_device_types (k : DeviceType) :
    k.code ∈ TSBackendDeviceType.supported_device_types_ ↔ (k = kCPU ∨ k = kCUDA) := by
  obtain ⟨c⟩ := k
  simp [TSBackendDeviceType.supported_device_types_, kCPU, kCUDA]

/-- C1.  The backend constructed with `LTC_TS_CUDA` unset has the host kind as
its default, and `GetBackendDevices` then returns two devices of ordinal 0 that
are both of the host kind: no entry is of the accelerator kind.  In every
state the two entries are the same device, of the default kind. -/
theorem GetBackendDevices_host_default_twice_host :
    TSBackendImpl.create false = .ok hostBackend ∧
    hostBackend.GetBackendDevices
      = [⟨⟨kCPU.code⟩, 0⟩, ⟨⟨kCPU.code⟩, 0⟩] ∧
    (∀ d ∈ hostBackend.GetBackendDevices, d.type ≠ kCUDA.code) ∧
    ∀ b : TSBackendImpl,
      b.GetBackendDevices = [⟨b.GetDefaultDeviceType, 0⟩, ⟨b.GetDefaultDeviceType, 0⟩] := by
  refine ⟨?_, ?_, ?_, fun _ => rfl⟩
  · have h : kCPU.code ∈ TSBackendDeviceType.supported_device_types_ :=
      (mem_supported_device_types kCPU).2 (Or.inl rfl)
    simp only [TSBackendImpl.create, TSBackendDeviceType.construct, Bool.false_eq_true,
      if_false, h, if_true]
    rfl
  · rfl
  · intro d hd
    simp only [hostBackend, TSBackendImpl.GetBackendDevices, TSBackendImpl.GetBackendDevice,
      TSBackendImpl.GetDefaultDeviceType, TSBackendDeviceType.toBase, List.nil_append,
      List.cons_append, List.mem_cons, List.mem_singleton, List.not_mem_nil, or_false,
      or_self] at hd
    subst hd
    simp [BackendDevice.type, kCPU, kCUDA]

/-- C2.  `GetBackendDevice` keeps the index of the external device as the
ordinal, takes the kind from the backend default, and so gives equal results
on two external devices that differ only in kind. -/
theorem GetBackendDevice_ignores_kind (b : TSBackendImpl) (k : DeviceType) (i : Int) :
    (b.GetBackendDevice ⟨k, i⟩).ordinal = i ∧
    (⟨(b.GetBackendDevice ⟨k, i⟩).type⟩ : DeviceType) = b.default_device_type_.c10Type ∧
    ∀ k2 : DeviceType, b.GetBackendDevice ⟨k2, i⟩ = b.GetBackendDevice ⟨k, i⟩ :=
  ⟨rfl, rfl, fun _ => rfl⟩

/-- C3.  The constructor of `TSBackendDeviceType` yields a descriptor, of the
given kind, exactly for the kinds CPU and CUDA; for exactly the other kinds it
stops at the `TORCH_CHECK`, and then there is no descriptor. -/
theorem TSBackendDeviceType_construct_iff (k : DeviceType) :
    ((∃ t, TSBackendDeviceType.construct k = .ok t ∧ t.c10Type = k) ↔
        (k = kCPU ∨ k = kCUDA)) ∧
    ((∃ t, TSBackendDeviceType.construct k = .ok t) ↔ (k = kCPU ∨ k = kCUDA)) ∧
    (TSBackendDeviceType.construct k = .error Failure.torchCheck ↔
        ¬ (k = kCPU ∨ k = kCUDA)) := by
  by_cases h : k.code ∈ TSBackendDeviceType.supported_device_types_
  · have hk := (mem_supported_device_types k).1 h
    have hc : TSBackendDeviceType.construct k = .ok { type := k.code } := by
      simp [TSBackendDeviceType.construct, h]
    refine ⟨⟨fun _ => hk, fun _ => ⟨_, hc, rfl⟩⟩, ⟨fun _ => hk, fun _ => ⟨_, hc⟩⟩, ?_⟩
    rw [hc]
    constructor
    · intro h0; cases h0
    · intro h0; exact absurd hk h0
  · have hk : ¬ (k = kCPU ∨ k = kCUDA) := fun h0 => h ((mem_supported_device_types k).2 h0)
    have hc : TSBackendDeviceType.construct k = .error Failure.torchCheck := by
      simp [TSBackendDeviceType.construct, h]
    refine ⟨⟨?_, fun h0 => absurd h0 hk⟩, ⟨?_, fun h0 => absurd h0 hk⟩, ?_⟩
    · rintro ⟨t, ht, _⟩
      rw [hc] at ht
      cases ht
    · rintro ⟨t, ht⟩
      rw [hc] at ht
      cases ht
    · exact ⟨fun _ => hk, fun _ => hc⟩

/-! ## Properties: compilation -/

/-- The loop of `Compile` leaves the store of computation objects as it was. -/
theorem foldl_CompileVisit {C : Type} (instances : List ComputationPtr)
    (store : ComputationStore C) :
    instances.foldl TSBackendImpl.CompileVisit store = store := by
  induction instances with
  | nil => rfl
  | cons inst rest ih => simpa [List.foldl, TSBackendImpl.CompileVisit] using ih

/-- C8.  `Compile` returns the list it was given: same length, the same pointer
at every position; the content of every computation object is as before; and
compiling the result again gives the same result. -/
theorem Compile_identity {C : Type} (b : TSBackendImpl) (store : ComputationStore C)
    (instances : List ComputationPtr) :
    (b.Compile store instances).2 = instances ∧
    (b.Compile store instances).2.length = instances.length ∧
    (∀ i : Nat, (b.Compile store instances).2[i]? = instances[i]?) ∧
    (∀ ptr : ComputationPtr, (b.Compile store instances).1 ptr = store ptr) ∧
    b.Compile (b.Compile store instances).1 (b.Compile store instances).2
      = b.Compile store instances ∧
    b.Compile store instances = (store, instances) := by
  have h : b.Compile store instances = (store, instances) := by
    simp [TSBackendImpl.Compile, foldl_CompileVisit]
  rw [h]
  exact ⟨rfl, rfl, fun _ => rfl, fun _ => rfl, h, rfl⟩

/-! ## Properties: setting the default device -/

/-- Once the static of `SetDefaultDeviceType` is initialised, a further call
changes neither the static nor the count of warm-up allocations. -/
theorem setDefaultStep_initialised (p : ProcessState) (type : DeviceType)
    (h : p.init_cuda.isSome = true) :
    (setDefaultStep p type).init_cuda.isSome = true ∧
    (setDefaultStep p type).warmups = p.warmups := by
  obtain ⟨v, hv⟩ := Option.isSome_iff_exists.1 h
  cases hc : TSBackendDeviceType.construct type with
  | error e =>
    simp [setDefaultStep, SetDefaultDeviceType, hc, bind, Except.bind, h]
  | ok t =>
    simp [setDefaultStep, SetDefaultDeviceType, hc, hv, bind, Except.bind, pure, Except.pure]

/-- One call performs at most one warm-up allocation, and performs one only
while initialising the static. -/
theorem setDefaultStep_warmups (p : ProcessState) (type : DeviceType) :
    (p.init_cuda = none ∧ (setDefaultStep p type).init_cuda = none ∧
        (setDefaultStep p type).warmups = p.warmups) ∨
    ((setDefaultStep p type).init_cuda.isSome = true ∧
        (setDefaultStep p type).warmups ≤ p.warmups + 1) := by
  cases hi : p.init_cuda with
  | some v =>
    right
    have h := setDefaultStep_initialised p type (by simp [hi])
    exact ⟨h.1, by omega⟩
  | none =>
    cases hc : TSBackendDeviceType.construct type with
    | error e =>
      left
      simp [setDefaultStep, SetDefaultDeviceType, hc, bind, Except.bind, hi]
    | ok t =>
      right
      by_cases hk : t.c10Type = kCUDA
      · simp [setDefaultStep, SetDefaultDeviceType, hc, hi, hk, bind, Except.bind, pure,
          Except.pure]
      · simp [setDefaultStep, SetDefaultDeviceType, hc, hi, hk, bind, Except.bind, pure,
          Except.pure]

/-- Over any sequence of calls from a fresh process the warm-up allocation is
performed at most once. -/
theorem setDefaultSequence_warmups_le_one (types : List DeviceType) :
    ∀ p : ProcessState,
      ((p.init_cuda = none ∧ p.warmups = 0) ∨ (p.init_cuda.isSome = true ∧ p.warmups ≤ 1)) →
      (setDefaultSequence p types).warmups ≤ 1 := by
  induction types with
  | nil =>
    intro p hp
    rcases hp with ⟨_, h⟩ | ⟨_, h⟩ <;> simp [setDefaultSequence, h]
  | cons type rest ih =>
    intro p hp
    show (setDefaultSequence (setDefaultStep p type) rest).warmups ≤ 1
    apply ih
    rcases hp with ⟨hn, hw⟩ | ⟨hs, hw⟩
    · rcases setDefaultStep_warmups p type with ⟨_, h1, h2⟩ | ⟨h1, h2⟩
      · left; exact ⟨h1, by omega⟩
      · right; exact ⟨h1, by omega⟩
    · right
      have h := setDefaultStep_initialised p type hs
      exact ⟨h.1, by omega⟩

/-- C9.  Starting from a freshly constructed backend, a call that sets the host
kind followed by a call that sets the accelerator kind leaves the default at
the accelerator kind with no warm-up allocation performed: the static was
initialised, empty, by the first call.  A first call that sets the accelerator
kind does perform the warm-up. -/
theorem SetDefaultDeviceType_host_then_accelerator_no_warmup :
    (setDefaultSequence (ProcessState.start hostBackend)
        [kCPU, kCUDA]).backend.default_device_type_.c10Type = kCUDA ∧
    (setDefaultSequence (ProcessState.start hostBackend) [kCPU, kCUDA]).warmups = 0 ∧
    ((setDefaultSequence (ProcessState.start hostBackend)
        [kCPU, kCUDA]).init_cuda.map Option.isSome) = some false ∧
    (setDefaultSequence (ProcessState.start hostBackend) [kCUDA]).warmups = 1 := by
  have h0 : TSBackendDeviceType.construct kCPU = .ok ⟨kCPU.code⟩ := by
    simp [TSBackendDeviceType.construct, mem_supported_device_types]
  have h1 : TSBackendDeviceType.construct kCUDA = .ok ⟨kCUDA.code⟩ := by
    simp [TSBackendDeviceType.construct, mem_supported_device_types]
  have hne : ¬ ((⟨kCPU.code⟩ : TSBackendDeviceType).c10Type = kCUDA) := by decide
  have heq : (⟨kCUDA.code⟩ : TSBackendDeviceType).c10Type = kCUDA := rfl
  refine ⟨?_, ?_, ?_, ?_⟩ <;>
    simp [setDefaultSequence, setDefaultStep, SetDefaultDeviceType, ProcessState.start, hostBackend,
      h0, h1, hne, heq, bind, Except.bind, pure, Except.pure]

/-! ## Properties: the argument loop of `ExecuteComputation` -/

/-- An argument that carries a scalar is pushed as that scalar. -/
theorem pushArgument_scalar (b : TSBackendImpl) (stack : List IValue) (a : TSData)
    (v : Scalar) (h : a.scalar = some v) :
    b.pushArgument stack a = .ok (stack ++ [IValue.scalar v]) := by
  simp [TSBackendImpl.pushArgument, h, pure, Except.pure]

/-- With a default kind other than the accelerator kind, an argument without a
scalar is pushed as its buffer, whatever the buffer is. -/
theorem pushArgument_not_accelerator (b : TSBackendImpl) (stack : List IValue) (a : TSData)
    (h : a.scalar = none) (hb : b.default_device_type_.c10Type ≠ kCUDA) :
    b.pushArgument stack a = .ok (stack ++ [IValue.tensor a.data]) := by
  have hb2 : (⟨b.default_device_type_.type⟩ : DeviceType) ≠ kCUDA := hb
  simp [TSBackendImpl.pushArgument, h, hb2, pure, Except.pure]

/-- With the accelerator kind as default, an argument with neither scalar nor
buffer stops the loop with the error of the device query. -/
theorem pushArgument_accelerator_undefined (b : TSBackendImpl) (stack : List IValue)
    (a : TSData) (h : a.scalar = none) (hb : b.default_device_type_.c10Type = kCUDA)
    (hd : a.data = Tensor.undefined) :
    b.pushArgument stack a = .error Failure.tensorError := by
  have hb2 : (⟨b.default_device_type_.type⟩ : DeviceType) = kCUDA := hb
  simp [TSBackendImpl.pushArgument, h, hb2, hd, Tensor.device, bind, Except.bind]

/-- With the accelerator kind as default, an argument without a scalar whose
buffer is on the accelerator is pushed as its buffer. -/
theorem pushArgument_accelerator_on (b : TSBackendImpl) (stack : List IValue)
    (a : TSData) (impl : TensorImpl) (h : a.scalar = none)
    (hb : b.default_device_type_.c10Type = kCUDA)
    (hd : a.data = Tensor.defined impl) (hk : impl.device.type = kCUDA) :
    b.pushArgument stack a = .ok (stack ++ [IValue.tensor a.data]) := by
  have hb2 : (⟨b.default_device_type_.type⟩ : DeviceType) = kCUDA := hb
  simp [TSBackendImpl.pushArgument, h, hb2, hd, hk, Tensor.device, bind, Except.bind,
    pure, Except.pure]

/-- With the accelerator kind as default, an argument without a scalar whose
buffer is not on the accelerator stops the loop at the placement check. -/
theorem pushArgument_accelerator_off (b : TSBackendImpl) (stack : List IValue)
    (a : TSData) (impl : TensorImpl) (h : a.scalar = none)
    (hb : b.default_device_type_.c10Type = kCUDA)
    (hd : a.data = Tensor.defined impl) (hk : impl.device.type ≠ kCUDA) :
    b.pushArgument stack a = .error Failure.placementCheck := by
  have hb2 : (⟨b.default_device_type_.type⟩ : DeviceType) = kCUDA := hb
  simp [TSBackendImpl.pushArgument, h, hb2, hd, hk, Tensor.device, bind, Except.bind,
    throw, throwThe, MonadExceptOf.throw]

/-- Whenever one argument is pushed, the stack grows by its entry. -/
theorem pushArgument_ok (b : TSBackendImpl) (stack out : List IValue) (a : TSData)
    (h : b.pushArgument stack a = .ok out) : out = stack ++ [a.stackEntry] := by
  cases hs : a.scalar with
  | some v =>
    rw [pushArgument_scalar b stack a v hs] at h
    cases h
    simp [TSData.stackEntry, hs]
  | none =>
    have he : a.stackEntry = IValue.tensor a.data := by simp [TSData.stackEntry, hs]
    by_cases hb : b.default_device_type_.c10Type = kCUDA
    · cases hd : a.data with
      | undefined =>
        rw [pushArgument_accelerator_undefined b stack a hs hb hd] at h
        cases h
      | defined impl =>
        by_cases hk : impl.device.type = kCUDA
        · rw [pushArgument_accelerator_on b stack a impl hs hb hd hk] at h
          cases h
          rw [he, hd]
        · rw [pushArgument_accelerator_off b stack a impl hs hb hd hk] at h
          cases h
    · rw [pushArgument_not_accelerator b stack a hs hb] at h
      cases h
      rw [he]

/-- One step of the argument loop. -/
theorem pushArguments_cons (b : TSBackendImpl) (stack : List IValue) (a : TSData)
    (rest : List TSData) :
    b.pushArguments stack (a :: rest)
      = (b.pushArgument stack a >>= fun st => b.pushArguments st rest) := rfl

/-- When the argument loop completes, the stack has grown by the entries of the
arguments, in order. -/
theorem pushArguments_ok (b : TSBackendImpl) (arguments : List TSData) :
    ∀ stack out : List IValue, b.pushArguments stack arguments = .ok out →
      out = stack ++ arguments.map TSData.stackEntry := by
  induction arguments with
  | nil =>
    intro stack out h
    simp only [TSBackendImpl.pushArguments, pure, Except.pure] at h
    cases h
    simp
  | cons a rest ih =>
    intro stack out h
    rw [pushArguments_cons] at h
    cases h1 : b.pushArgument stack a with
    | error e =>
      rw [h1] at h
      cases h
    | ok st =>
      rw [h1] at h
      have h2 := ih st out h
      rw [pushArgument_ok b stack st a h1] at h2
      simpa using h2

/-- C4.  When the placement check passes on an argument list, the stack handed
to the executable has one entry per argument, in argument order: the scalar
for an argument that carries one, the buffer otherwise; and the call continues
with the executable on that stack.  A value made by
`MakeComputationDataFromScalar` carries the scalar and no buffer and, as sole
argument, gives the one-element stack holding that scalar. -/
theorem ExecuteComputation_input_stack (b : TSBackendImpl) (graph_executor : GraphExecutor)
    (arguments : List TSData) (device : BackendDevice) (stack : List IValue)
    (h : b.pushArguments [] arguments = .ok stack) :
    stack = arguments.map TSData.stackEntry ∧
    stack.length = arguments.length ∧
    (∀ (i : Nat) (a : TSData), arguments[i]? = some a →
      stack[i]? = some (match a.scalar with
        | some value => IValue.scalar value
        | none => IValue.tensor a.data)) ∧
    b.ExecuteComputation graph_executor arguments device
      = (graph_executor (arguments.map TSData.stackEntry)
          >>= TSBackendImpl.pushResults device []) ∧
    (∀ (s : Scalar) (dev : BackendDevice),
      (b.MakeComputationDataFromScalar s dev).scalar = some s ∧
      (b.MakeComputationDataFromScalar s dev).HasValue = false ∧
      b.pushArguments [] [b.MakeComputationDataFromScalar s dev] = .ok [IValue.scalar s]) := by
  have hst : stack = arguments.map TSData.stackEntry := by
    simpa using pushArguments_ok b arguments [] stack h
  refine ⟨hst, by simp [hst], ?_, ?_, ?_⟩
  · intro i a hi
    rw [hst, List.getElem?_map, hi]
    rfl
  · simp only [TSBackendImpl.ExecuteComputation, h, hst]
    rfl
  · intro s dev
    refine ⟨rfl, rfl, ?_⟩
    rw [pushArguments_cons, pushArgument_scalar b [] _ s rfl]
    rfl

/-- C4, at a concrete input: with the accelerator kind as default, the scalar 5
and a one-element accelerator buffer give the stack of that scalar and that
buffer. -/
theorem ExecuteComputation_input_stack_witness :
    acceleratorBackend.pushArguments [] [scalarFive, acceleratorValue]
      = .ok [IValue.scalar (Scalar.ofInt 5), IValue.tensor acceleratorTensor1] ∧
    [IValue.scalar (Scalar.ofInt 5), IValue.tensor acceleratorTensor1]
      = List.map TSData.stackEntry [scalarFive, acceleratorValue] :=
  ⟨rfl, (ExecuteComputation_input_stack acceleratorBackend identityExecutor
    [scalarFive, acceleratorValue] acceleratorDevice
    [IValue.scalar (Scalar.ofInt 5), IValue.tensor acceleratorTensor1] rfl).1⟩

/-! ## Properties: the placement check -/

/-- With a default kind other than the accelerator kind the argument loop
always completes. -/
theorem pushArguments_not_accelerator (b : TSBackendImpl)
    (hb : b.default_device_type_.c10Type ≠ kCUDA) (arguments : List TSData) :
    ∀ stack : List IValue,
      b.pushArguments stack arguments = .ok (stack ++ arguments.map TSData.stackEntry) := by
  induction arguments with
  | nil => intro stack; simp [TSBackendImpl.pushArguments, pure, Except.pure]
  | cons a rest ih =>
    intro stack
    have h1 : b.pushArgument stack a = .ok (stack ++ [a.stackEntry]) := by
      cases hs : a.scalar with
      | some v => rw [pushArgument_scalar b stack a v hs]; simp [TSData.stackEntry, hs]
      | none => rw [pushArgument_not_accelerator b stack a hs hb]; simp [TSData.stackEntry, hs]
    rw [pushArguments_cons, h1]
    show b.pushArguments (stack ++ [a.stackEntry]) rest = _
    rw [ih]
    simp

/-- The argument loop stops at the placement check exactly when the default is
the accelerator kind and some argument without a scalar has a buffer off the
accelerator while every argument before it has a scalar or a buffer. -/
theorem pushArguments_placementCheck_iff (b : TSBackendImpl) (arguments : List TSData) :
    ∀ stack : List IValue,
      b.pushArguments stack arguments = .error Failure.placementCheck ↔
        (b.default_device_type_.c10Type = kCUDA ∧
          ∃ (pre : List TSData) (a : TSData) (post : List TSData) (impl : TensorImpl),
            arguments = pre ++ a :: post ∧
            (∀ x ∈ pre, x.scalar.isSome = true ∨ x.data.isDefined = true) ∧
            a.scalar = none ∧ a.data = Tensor.defined impl ∧ impl.device.type ≠ kCUDA) := by
  induction arguments with
  | nil =>
    intro stack
    constructor
    · intro h
      simp only [TSBackendImpl.pushArguments, pure, Except.pure] at h
      cases h
    · rintro ⟨_, pre, a, post, impl, h, _⟩
      simp at h
  | cons a rest ih =>
    intro stack
    rw [pushArguments_cons]
    constructor
    · intro h
      cases h1 : b.pushArgument stack a with
      | ok st =>
        rw [h1] at h
        obtain ⟨hb, pre, a2, post, impl, he, hpre, hs, hd, hk⟩ := (ih st).1 h
        refine ⟨hb, a :: pre, a2, post, impl, by simp [he], ?_, hs, hd, hk⟩
        intro x hx
        rcases List.mem_cons.1 hx with hxa | hxp
        · subst hxa
          cases hsx : x.scalar with
          | some v => simp
          | none =>
            cases hdx : x.data with
            | undefined =>
              rw [pushArgument_accelerator_undefined b stack x hsx hb hdx] at h1
              cases h1
            | defined implx => simp [Tensor.isDefined]
        · exact hpre x hxp
      | error e =>
        rw [h1] at h
        have he : e = Failure.placementCheck := by
          cases h
          rfl
        subst he
        cases hs : a.scalar with
        | some v =>
          rw [pushArgument_scalar b stack a v hs] at h1
          cases h1
        | none =>
          by_cases hb : b.default_device_type_.c10Type = kCUDA
          · cases hd : a.data with
            | undefined =>
              rw [pushArgument_accelerator_undefined b stack a hs hb hd] at h1
              cases h1
            | defined impl =>
              by_cases hk : impl.device.type = kCUDA
              · rw [pushArgument_accelerator_on b stack a impl hs hb hd hk] at h1
                cases h1
              · exact ⟨hb, [], a, rest, impl, rfl, by simp, hs, hd, hk⟩
          · rw [pushArgument_not_accelerator b stack a hs hb] at h1
            cases h1
    · rintro ⟨hb, pre, a2, post, impl, he, hpre, hs, hd, hk⟩
      cases pre with
      | nil =>
        simp only [List.nil_append, List.cons.injEq] at he
        obtain ⟨ha, _⟩ := he
        subst ha
        rw [pushArgument_accelerator_off b stack a impl hs hb hd hk]
        rfl
      | cons x pre2 =>
        simp only [List.cons_append, List.cons.injEq] at he
        obtain ⟨hx, hrest⟩ := he
        subst hx
        have hrec : ∀ st, b.pushArguments st rest = .error Failure.placementCheck := by
          intro st
          refine (ih st).2 ⟨hb, pre2, a2, post, impl, hrest, ?_, hs, hd, hk⟩
          intro y hy
          exact hpre y (List.mem_cons_of_mem _ hy)
        cases hsa : a.scalar with
        | some v =>
          rw [pushArgument_scalar b stack a v hsa]
          exact hrec _
        | none =>
          cases hda : a.data with
          | undefined =>
            have := hpre a (List.mem_cons_self _ _)
            simp [hsa, hda, Tensor.isDefined] at this
          | defined impla =>
            by_cases hka : impla.device.type = kCUDA
            · rw [pushArgument_accelerator_on b stack a impla hsa hb hda hka]
              exact hrec _
            · rw [pushArgument_accelerator_off b stack a impla hsa hb hda hka]
              rfl

/-- The call stops at the placement check whatever the executable is exactly
when the argument loop stops there. -/
theorem ExecuteComputation_placementCheck_loop (b : TSBackendImpl)
    (arguments : List TSData) (device : BackendDevice) :
    (∀ graph_executor : GraphExecutor,
        b.ExecuteComputation graph_executor arguments device
          = .error Failure.placementCheck) ↔
      b.pushArguments [] arguments = .error Failure.placementCheck := by
  constructor
  · intro h
    have h0 := h (fun _ => .ok [])
    simp only [TSBackendImpl.ExecuteComputation] at h0
    cases h1 : b.pushArguments [] arguments with
    | ok st =>
      rw [h1] at h0
      cases h0
    | error e =>
      rw [h1] at h0
      have he : e = Failure.placementCheck := by
        cases h0
        rfl
      rw [he]
  · intro h graph_executor
    simp only [TSBackendImpl.ExecuteComputation, h]
    rfl

/-- C5, as stated, fails: with the accelerator kind as default and the arguments
a placeholder followed by a host-resident buffer, some argument without a
scalar has a buffer off the accelerator, yet the call does not stop at the
placement check: the device query on the placeholder raises first. -/
theorem ExecuteComputation_placement_check_counterexample :
    acceleratorBackend.ExecuteComputation identityExecutor
        [placeholderValue, hostValue] acceleratorDevice = .error Failure.tensorError ∧
    ¬ ((∀ graph_executor : GraphExecutor,
          acceleratorBackend.ExecuteComputation graph_executor
            [placeholderValue, hostValue] acceleratorDevice
            = .error Failure.placementCheck) ↔
        (acceleratorBackend.default_device_type_.c10Type = kCUDA ∧
          ∃ a ∈ [placeholderValue, hostValue], a.scalar = none ∧
            ∃ impl : TensorImpl, a.data = Tensor.defined impl ∧
              impl.device.type ≠ kCUDA)) := by
  refine ⟨rfl, ?_⟩
  intro h
  have hr : acceleratorBackend.default_device_type_.c10Type = kCUDA ∧
      ∃ a ∈ [placeholderValue, hostValue], a.scalar = none ∧
        ∃ impl : TensorImpl, a.data = Tensor.defined impl ∧ impl.device.type ≠ kCUDA :=
    ⟨rfl, hostValue, by simp, rfl, ⟨⟨kCPU, 0⟩, ScalarType.Long, [1], [Scalar.ofInt 7], rfl⟩,
      rfl, by decide⟩
  have h1 := h.2 hr identityExecutor
  have h2 : acceleratorBackend.ExecuteComputation identityExecutor
      [placeholderValue, hostValue] acceleratorDevice = .error Failure.tensorError := rfl
  rw [h2] at h1
  cases h1

/-- C5, amended.  The call stops at the placement check, whatever the
executable, exactly when the default is the accelerator kind and some argument
without a scalar has a buffer off the accelerator while every argument before
it has a scalar or a buffer.  For argument lists without placeholders this is
the condition that some argument without a scalar has a buffer off the
accelerator.  With a default other than the accelerator kind the loop always
completes. -/
theorem ExecuteComputation_placement_check (b : TSBackendImpl) (arguments : List TSData)
    (device : BackendDevice) :
    ((∀ graph_executor : GraphExecutor,
        b.ExecuteComputation graph_executor arguments device
          = .error Failure.placementCheck) ↔
      (b.default_device_type_.c10Type = kCUDA ∧
        ∃ (pre : List TSData) (a : TSData) (post : List TSData) (impl : TensorImpl),
          arguments = pre ++ a :: post ∧
          (∀ x ∈ pre, x.scalar.isSome = true ∨ x.data.isDefined = true) ∧
          a.scalar = none ∧ a.data = Tensor.defined impl ∧ impl.device.type ≠ kCUDA)) ∧
    ((∀ x ∈ arguments, x.scalar.isSome = true ∨ x.data.isDefined = true) →
      ((∀ graph_executor : GraphExecutor,
          b.ExecuteComputation graph_executor arguments device
            = .error Failure.placementCheck) ↔
        (b.default_device_type_.c10Type = kCUDA ∧
          ∃ a ∈ arguments, a.scalar = none ∧
            ∃ impl : TensorImpl, a.data = Tensor.defined impl ∧
              impl.device.type ≠ kCUDA))) ∧
    (b.default_device_type_.c10Type ≠ kCUDA →
      b.pushArguments [] arguments = .ok (arguments.map TSData.stackEntry)) := by
  have hmain := (ExecuteComputation_placementCheck_loop b arguments device).trans
    (pushArguments_placementCheck_iff b arguments [])
  refine ⟨hmain, ?_, ?_⟩
  · intro hall
    rw [hmain]
    constructor
    · rintro ⟨hb, pre, a, post, impl, he, _, hs, hd, hk⟩
      exact ⟨hb, a, by simp [he], hs, impl, hd, hk⟩
    · rintro ⟨hb, a, ha, hs, impl, hd, hk⟩
      obtain ⟨pre, post, he⟩ := List.append_of_mem ha
      refine ⟨hb, pre, a, post, impl, he, ?_, hs, hd, hk⟩
      intro x hx
      exact hall x (by simp [he, hx])
  · intro hb
    simpa using pushArguments_not_accelerator b hb arguments []

/-! ## Properties: the outputs of `ExecuteComputation` -/

/-- One step of the result loop. -/
theorem pushResults_cons (device : BackendDevice) (results : List TSData) (c : IValue)
    (rest : List IValue) :
    TSBackendImpl.pushResults device results (c :: rest)
      = (TSBackendImpl.pushResult device results c
          >>= fun rs => TSBackendImpl.pushResults device rs rest) := rfl

/-- Wrapping one value succeeds only on a tensor, and appends that tensor
wrapped with its own element type and dimensions and the requested device. -/
theorem pushResult_ok (device : BackendDevice) (results out : List TSData) (c : IValue)
    (h : TSBackendImpl.pushResult device results c = .ok out) :
    ∃ t : Tensor, c = IValue.tensor t ∧
      out = results ++ [(⟨device, ⟨t.scalar_type, t.sizes⟩, none, t⟩ : TSData)] := by
  cases c with
  | tensor t =>
    refine ⟨t, rfl, ?_⟩
    have h2 : TSBackendImpl.pushResult device results (IValue.tensor t)
        = .ok (results ++ [(⟨device, ⟨t.scalar_type, t.sizes⟩, none, t⟩ : TSData)]) := rfl
    rw [h2] at h
    cases h
    rfl
  | scalar v =>
    have h2 : TSBackendImpl.pushResult device results (IValue.scalar v)
        = .error Failure.tensorError := rfl
    rw [h2] at h
    cases h
  | other tag =>
    have h2 : TSBackendImpl.pushResult device results (IValue.other tag)
        = .error Failure.tensorError := rfl
    rw [h2] at h
    cases h

/-- When the result loop completes, every value of the stack was a tensor and
the results have grown by the wrapped tensors, in order. -/
theorem pushResults_ok (device : BackendDevice) (stack : List IValue) :
    ∀ results out : List TSData, TSBackendImpl.pushResults device results stack = .ok out →
      ∃ tensors : List Tensor, stack = tensors.map IValue.tensor ∧
        out = results ++ tensors.map
          (fun t => (⟨device, ⟨t.scalar_type, t.sizes⟩, none, t⟩ : TSData)) := by
  induction stack with
  | nil =>
    intro results out h
    simp only [TSBackendImpl.pushResults, pure, Except.pure] at h
    cases h
    exact ⟨[], rfl, by simp⟩
  | cons c rest ih =>
    intro results out h
    rw [pushResults_cons] at h
    cases h1 : TSBackendImpl.pushResult device results c with
    | error e =>
      rw [h1] at h
      cases h
    | ok rs =>
      rw [h1] at h
      obtain ⟨t, hc, hrs⟩ := pushResult_ok device results rs c h1
      obtain ⟨ts, hrest, hout⟩ := ih rs out h
      refine ⟨t :: ts, by simp [hc, hrest], ?_⟩
      rw [hout, hrs]
      simp

/-- C6.  When `ExecuteComputation` succeeds with requested device `device`, the
executable left a list of tensors on the stack and the call returns one value
per tensor, in the same order; each value has that tensor as its buffer, a
shape made of the element type and the dimensions of the tensor, no scalar,
and the device `device`, wherever the tensor resides. -/
theorem ExecuteComputation_outputs (b : TSBackendImpl) (graph_executor : GraphExecutor)
    (arguments : List TSData) (device : BackendDevice) (results : List TSData)
    (h : b.ExecuteComputation graph_executor arguments device = .ok results) :
    ∃ tensors : List Tensor,
      graph_executor (arguments.map TSData.stackEntry) = .ok (tensors.map IValue.tensor) ∧
      results.length = tensors.length ∧
      results = tensors.map
        (fun t => (⟨device, ⟨t.scalar_type, t.sizes⟩, none, t⟩ : TSData)) ∧
      ∀ (i : Nat) (r : TSData) (t : Tensor), results[i]? = some r → tensors[i]? = some t →
        r.data = t ∧ r.shape.scalar_type = t.scalar_type ∧ r.shape.sizes = t.sizes ∧
        r.device = device ∧ r.scalar = none := by
  simp only [TSBackendImpl.ExecuteComputation] at h
  cases h1 : b.pushArguments [] arguments with
  | error e =>
    rw [h1] at h
    cases h
  | ok stack =>
    rw [h1] at h
    have hst : stack = arguments.map TSData.stackEntry := by
      simpa using pushArguments_ok b arguments [] stack h1
    cases h2 : graph_executor stack with
    | error e =>
      have h3 : (Except.ok stack >>= fun st => graph_executor st >>= fun out =>
          TSBackendImpl.pushResults device [] out) = .ok results := h
      have h4 : (graph_executor stack >>= fun out =>
          TSBackendImpl.pushResults device [] out) = .ok results := h3
      rw [h2] at h4
      cases h4
    | ok out =>
      have h3 : (graph_executor stack >>= fun out =>
          TSBackendImpl.pushResults device [] out) = .ok results := h
      rw [h2] at h3
      have h4 : TSBackendImpl.pushResults device [] out = .ok results := h3
      obtain ⟨tensors, hout, hres⟩ := pushResults_ok device out [] results h4
      have hres2 : results = tensors.map
          (fun t => (⟨device, ⟨t.scalar_type, t.sizes⟩, none, t⟩ : TSData)) := by
        simpa using hres
      refine ⟨tensors, by rw [← hst, h2, hout], by simp [hres2], hres2, ?_⟩
      intro i r t hr ht
      rw [hres2, List.getElem?_map, ht] at hr
      have hr2 := Option.some.inj hr
      subst hr2
      exact ⟨rfl, rfl, rfl, rfl, rfl⟩

/-- C6, at a concrete input: the executable leaves a host-resident tensor, the
requested device is the accelerator device, and the one returned value wraps
the tensor and is tagged with the accelerator device. -/
theorem ExecuteComputation_outputs_witness :
    acceleratorBackend.ExecuteComputation (fun _ => .ok [IValue.tensor hostTensor1])
        [scalarFive] acceleratorDevice
      = .ok [TSData.ofTensor hostTensor1 ⟨ScalarType.Long, [1]⟩ acceleratorDevice] ∧
    ∃ tensors : List Tensor,
      (fun _ => .ok [IValue.tensor hostTensor1] : GraphExecutor)
          ([scalarFive].map TSData.stackEntry) = .ok (tensors.map IValue.tensor) ∧
      [TSData.ofTensor hostTensor1 ⟨ScalarType.Long, [1]⟩ acceleratorDevice].length
        = tensors.length ∧
      [TSData.ofTensor hostTensor1 ⟨ScalarType.Long, [1]⟩ acceleratorDevice]
        = tensors.map
          (fun t => (⟨acceleratorDevice, ⟨t.scalar_type, t.sizes⟩, none, t⟩ : TSData)) ∧
      ∀ (i : Nat) (r : TSData) (t : Tensor),
        [TSData.ofTensor hostTensor1 ⟨ScalarType.Long, [1]⟩ acceleratorDevice][i]? = some r →
        tensors[i]? = some t →
        r.data = t ∧ r.shape.scalar_type = t.scalar_type ∧ r.shape.sizes = t.sizes ∧
        r.device = acceleratorDevice ∧ r.scalar = none :=
  ⟨rfl, ExecuteComputation_outputs acceleratorBackend
    (fun _ => .ok [IValue.tensor hostTensor1]) [scalarFive] acceleratorDevice
    [TSData.ofTensor hostTensor1 ⟨ScalarType.Long, [1]⟩ acceleratorDevice] rfl⟩

/-! ## Properties: data transfer -/

/-- The three branches of `MakeComputationDataFromTensor` on a defined tensor. -/
theorem MakeComputationDataFromTensor_defined (b : TSBackendImpl) (impl : TensorImpl)
    (shape : Shape) (device : BackendDevice) :
    b.MakeComputationDataFromTensor (Tensor.defined impl) shape device =
      if impl.device.type = b.default_device_type_.c10Type ∧
          b.default_device_type_.c10Type = kCUDA then
        .ok (TSData.ofTensor
          (Tensor.defined
            { impl with device := ⟨b.default_device_type_.c10Type, toDeviceIndex device.ordinal⟩ })
          shape device)
      else if impl.device.type = kCPU ∧ impl.sizes.prod = 1 then
        (Tensor.item (Tensor.defined impl)) >>= fun v =>
          .ok (TSData.ofTensor
            (full impl.sizes v
              ⟨impl.scalar_type, ⟨b.default_device_type_.c10Type, toDeviceIndex device.ordinal⟩⟩)
            shape device)
      else
        .ok (TSData.ofTensor
          (Tensor.defined
            { impl with device := ⟨b.default_device_type_.c10Type, toDeviceIndex device.ordinal⟩ })
          shape device) := by
  by_cases h1 : impl.device.type = b.default_device_type_.c10Type ∧
      b.default_device_type_.c10Type = kCUDA
  · rw [if_pos h1]
    simp [TSBackendImpl.MakeComputationDataFromTensor, Tensor.options, Tensor.device,
      Tensor.to, TensorOptions.setDevice, Tensor.scalar_type, bind, Except.bind, pure,
      Except.pure, h1.1, h1.2]
  · rw [if_neg h1]
    by_cases h2 : impl.device.type = kCPU ∧ impl.sizes.prod = 1
    · rw [if_pos h2]
      simp [TSBackendImpl.MakeComputationDataFromTensor, Tensor.options, Tensor.device,
        Tensor.to, TensorOptions.setDevice, Tensor.scalar_type, Tensor.numel, Tensor.sizes,
        bind, Except.bind, pure, Except.pure, h1, h2]
      intro ha hb
      exact absurd ⟨h2.1.trans ha, hb⟩ h1
    · rw [if_neg h2]
      simp [TSBackendImpl.MakeComputationDataFromTensor, Tensor.options, Tensor.device,
        Tensor.to, TensorOptions.setDevice, Tensor.scalar_type, Tensor.numel, Tensor.sizes,
        bind, Except.bind, pure, Except.pure, h1, h2]

/-- A tensor whose dimensions multiply to one has exactly one element, which
`item` returns. -/
theorem item_of_numel_one (impl : TensorImpl) (h : impl.sizes.prod = 1) :
    ∃ v : Scalar, impl.elems = [v] ∧ Tensor.item (Tensor.defined impl) = .ok v := by
  have hl : impl.elems.length = 1 := impl.wf.trans h
  obtain ⟨v, hv⟩ := List.length_eq_one.1 hl
  exact ⟨v, hv, by simp [Tensor.item, hv]⟩

/-- C7.  For a host-resident tensor, `MakeComputationDataFromTensor` returns a
value, and `MakeTensorFromComputationData` of that value, for any logical
type, is a tensor with the dimensions, the elements and the element type of
the original.  With one element the value holds the tensor made by `full` from
the item; with any other element count it holds the result of the blocking
transfer. -/
theorem transfer_round_trip (b : TSBackendImpl) (impl : TensorImpl) (shape : Shape)
    (device : BackendDevice) (logical_scalar_type : Option ScalarType)
    (hhost : impl.device.type = kCPU) :
    ∃ data : TSData,
      b.MakeComputationDataFromTensor (Tensor.defined impl) shape device = .ok data ∧
      (b.MakeTensorFromComputationData data logical_scalar_type).sizes = impl.sizes ∧
      (b.MakeTensorFromComputationData data logical_scalar_type).elems = impl.elems ∧
      (b.MakeTensorFromComputationData data logical_scalar_type).scalar_type
        = impl.scalar_type ∧
      (impl.sizes.prod = 1 →
        ∃ v : Scalar, Tensor.item (Tensor.defined impl) = .ok v ∧
          data.data = full impl.sizes v
            ⟨impl.scalar_type, ⟨b.default_device_type_.c10Type, toDeviceIndex device.ordinal⟩⟩) ∧
      (impl.sizes.prod ≠ 1 →
        Tensor.to (Tensor.defined impl)
          ⟨impl.scalar_type, ⟨b.default_device_type_.c10Type, toDeviceIndex device.ordinal⟩⟩ false
          = .ok data.data) := by
  have h1 : ¬ (impl.device.type = b.default_device_type_.c10Type ∧
      b.default_device_type_.c10Type = kCUDA) := by
    rintro ⟨ha, hb⟩
    rw [hhost, hb] at ha
    exact absurd ha (by decide)
  by_cases h2 : impl.sizes.prod = 1
  · obtain ⟨v, hv, hitem⟩ := item_of_numel_one impl h2
    refine ⟨TSData.ofTensor (full impl.sizes v
      ⟨impl.scalar_type, ⟨b.default_device_type_.c10Type, toDeviceIndex device.ordinal⟩⟩) shape device,
      ?_, rfl, ?_, rfl, fun _ => ⟨v, hitem, rfl⟩, fun hne => absurd h2 hne⟩
    · rw [MakeComputationDataFromTensor_defined, if_neg h1, if_pos ⟨hhost, h2⟩, hitem]
      rfl
    · show List.replicate impl.sizes.prod v = impl.elems
      rw [h2, hv]
      rfl
  · refine ⟨TSData.ofTensor (Tensor.defined
      { impl with device := ⟨b.default_device_type_.c10Type, toDeviceIndex device.ordinal⟩ }) shape device,
      ?_, rfl, rfl, rfl, fun he => absurd he h2, fun _ => rfl⟩
    rw [MakeComputationDataFromTensor_defined, if_neg h1, if_neg (fun h => h2 h.2)]

/-- C7, at concrete inputs: a one-element host tensor and a two-by-two host
tensor, sent to the accelerator device of a backend whose default is the
accelerator kind. -/
theorem transfer_round_trip_witness :
    (hostImpl1.device.type = kCPU ∧
      ∃ data : TSData,
        acceleratorBackend.MakeComputationDataFromTensor (Tensor.defined hostImpl1)
          ⟨ScalarType.Long, [1]⟩ acceleratorDevice = .ok data ∧
        (acceleratorBackend.MakeTensorFromComputationData data none).sizes
          = hostImpl1.sizes ∧
        (acceleratorBackend.MakeTensorFromComputationData data none).elems
          = hostImpl1.elems) ∧
    (hostTensor4.device.type = kCPU ∧
      ∃ data : TSData,
        acceleratorBackend.MakeComputationDataFromTensor (Tensor.defined hostTensor4)
          ⟨ScalarType.Long, [2, 2]⟩ acceleratorDevice = .ok data ∧
        (acceleratorBackend.MakeTensorFromComputationData data none).sizes
          = hostTensor4.sizes ∧
        (acceleratorBackend.MakeTensorFromComputationData data none).elems
          = hostTensor4.elems) := by
  refine ⟨⟨rfl, ?_⟩, ⟨rfl, ?_⟩⟩
  · obtain ⟨data, h1, h2, h3, _⟩ := transfer_round_trip acceleratorBackend hostImpl1
      ⟨ScalarType.Long, [1]⟩ acceleratorDevice none rfl
    exact ⟨data, h1, h2, h3⟩
  · obtain ⟨data, h1, h2, h3, _⟩ := transfer_round_trip acceleratorBackend hostTensor4
      ⟨ScalarType.Long, [2, 2]⟩ acceleratorDevice none rfl
    exact ⟨data, h1, h2, h3⟩

end compiler
end torch_lazy_tensors
